import Mathlib

/-!
# Verification of the ezShareToSleepHQ upload subsystem

Shallow embedding of the repository's upload orchestration code:

* `sleephq_client.py`  — `SleepHQClient`: authentication state, `is_authenticated`,
  `create_import`, `add_file_to_import`, `process_import`, `upload_files`,
  `_calculate_content_hash` (MD5 over content ++ UTF-8 name), `_get_relative_path`.
* `sleephq_uploader.py` — `upload_to_sleephq`: the incremental file-selection rules
  (mandatory root files, `SETTINGS/`, active `DATALOG/<date>/` folders).
* `upload_tracker.py`  — `UploadTracker`: persistent upload history.

Machine integers/floats are modelled as `Nat`/`Int` (wall-clock seconds as `Int`;
only order comparisons on times matter to the code).  Bytes are `Nat` values < 256.
HTTP calls are modelled by passing the response as an explicit oracle value; file
system state is passed explicitly.  Python `dict`s are modelled as functions to
`Option`; Python paths are lists of components.
-/

namespace EzShare

/-! ## Python-style helpers -/

/-- Truthiness of an optional Python string (`None` and `""` are falsy,
every other string is truthy).  Used by `is_authenticated`
(`if not self.access_token or not self.team_id`) and by `upload_files`
(`if not import_id`). -/
def pyTruthy : Option String → Bool
  | none => false
  | some s => !(s == "")

/-! ## MD5 (model of `hashlib.md5`, RFC 1321), over byte lists

`_calculate_content_hash` computes `hashlib.md5(file_content + name_bytes).hexdigest()`.
The implementation below is validated against the RFC 1321 test vectors
(`md5Hex [] = "d41d..."`, `md5Hex "abc" = "9001..."`, see the examples after the
definitions). -/

/-- Truncate to an unsigned 32-bit value. -/
def u32 (n : Nat) : Nat := n % 4294967296

/-- 32-bit left rotation (callers pass `x < 2 ^ 32` and `s ≤ 31`). -/
def rotl32 (x s : Nat) : Nat := u32 (x * 2 ^ s + x / 2 ^ (32 - s))

/-- The 64 MD5 sine-derived constants `T[i] = floor(2^32 * |sin(i+1)|)`. -/
def md5K : List Nat :=
  [0xd76aa478, 0xe8c7b756, 0x242070db, 0xc1bdceee,
   0xf57c0faf, 0x4787c62a, 0xa8304613, 0xfd469501,
   0x698098d8, 0x8b44f7af, 0xffff5bb1, 0x895cd7be,
   0x6b901122, 0xfd987193, 0xa679438e, 0x49b40821,
   0xf61e2562, 0xc040b340, 0x265e5a51, 0xe9b6c7aa,
   0xd62f105d, 0x02441453, 0xd8a1e681, 0xe7d3fbc8,
   0x21e1cde6, 0xc33707d6, 0xf4d50d87, 0x455a14ed,
   0xa9e3e905, 0xfcefa3f8, 0x676f02d9, 0x8d2a4c8a,
   0xfffa3942, 0x8771f681, 0x6d9d6122, 0xfde5380c,
   0xa4beea44, 0x4bdecfa9, 0xf6bb4b60, 0xbebfbc70,
   0x289b7ec6, 0xeaa127fa, 0xd4ef3085, 0x04881d05,
   0xd9d4d039, 0xe6db99e5, 0x1fa27cf8, 0xc4ac5665,
   0xf4292244, 0x432aff97, 0xab9423a7, 0xfc93a039,
   0x655b59c3, 0x8f0ccc92, 0xffeff47d, 0x85845dd1,
   0x6fa87e4f, 0xfe2ce6e0, 0xa3014314, 0x4e0811a1,
   0xf7537e82, 0xbd3af235, 0x2ad7d2bb, 0xeb86d391]

/-- The 64 MD5 per-step rotation amounts. -/
def md5S : List Nat :=
  [7, 12, 17, 22, 7, 12, 17, 22, 7, 12, 17, 22, 7, 12, 17, 22,
   5, 9, 14, 20, 5, 9, 14, 20, 5, 9, 14, 20, 5, 9, 14, 20,
   4, 11, 16, 23, 4, 11, 16, 23, 4, 11, 16, 23, 4, 11, 16, 23,
   6, 10, 15, 21, 6, 10, 15, 21, 6, 10, 15, 21, 6, 10, 15, 21]

/-- The MD5 round functions F, G, H, I (complement as xor with `0xffffffff`). -/
def md5F (i b c d : Nat) : Nat :=
  if i < 16 then (b &&& c) ||| ((b ^^^ 4294967295) &&& d)
  else if i < 32 then (d &&& b) ||| ((d ^^^ 4294967295) &&& c)
  else if i < 48 then b ^^^ c ^^^ d
  else c ^^^ (b ||| (d ^^^ 4294967295))

/-- Message-word index used at step `i`. -/
def md5M (i : Nat) : Nat :=
  if i < 16 then i
  else if i < 32 then (5 * i + 1) % 16
  else if i < 48 then (3 * i + 5) % 16
  else (7 * i) % 16

/-- Little-endian 32-bit word `j` of a 64-byte block. -/
def leWord (block : List Nat) (j : Nat) : Nat :=
  block.getD (4 * j) 0 + 256 * block.getD (4 * j + 1) 0
    + 65536 * block.getD (4 * j + 2) 0 + 16777216 * block.getD (4 * j + 3) 0

/-- One of the 64 MD5 steps; the state is the register quadruple `(A, B, C, D)`. -/
def md5Step (block : List Nat) (st : Nat × Nat × Nat × Nat) (i : Nat) : Nat × Nat × Nat × Nat :=
  let t := u32 (st.1 + md5F i st.2.1 st.2.2.1 st.2.2.2 + md5K.getD i 0 + leWord block (md5M i))
  (st.2.2.2, u32 (st.2.1 + rotl32 t (md5S.getD i 0)), st.2.1, st.2.2.1)

/-- Compress one 64-byte block into the running state. -/
def md5Block (st : Nat × Nat × Nat × Nat) (block : List Nat) : Nat × Nat × Nat × Nat :=
  let r := (List.range 64).foldl (md5Step block) st
  (u32 (st.1 + r.1), u32 (st.2.1 + r.2.1), u32 (st.2.2.1 + r.2.2.1), u32 (st.2.2.2 + r.2.2.2))

/-- MD5 padding: `0x80`, zeros to 56 mod 64, then the 64-bit little-endian bit length. -/
def md5Pad (msg : List Nat) : List Nat :=
  msg ++ [128] ++ List.replicate ((119 - msg.length % 64) % 64) 0
    ++ (List.range 8).map (fun i => msg.length * 8 / 2 ^ (8 * i) % 256)

/-- Final MD5 register state of a byte message. -/
def md5State (msg : List Nat) : Nat × Nat × Nat × Nat :=
  (List.range ((md5Pad msg).length / 64)).foldl
    (fun st i => md5Block st (((md5Pad msg).drop (64 * i)).take 64))
    (0x67452301, 0xefcdab89, 0x98badcfe, 0x10325476)

/-- Little-endian byte decomposition of a 32-bit word. -/
def wordLE (x : Nat) : List Nat := [x % 256, x / 256 % 256, x / 65536 % 256, x / 16777216 % 256]

/-- The 16-byte MD5 digest. -/
def md5Bytes (msg : List Nat) : List Nat :=
  wordLE (md5State msg).1 ++ wordLE (md5State msg).2.1
    ++ wordLE (md5State msg).2.2.1 ++ wordLE (md5State msg).2.2.2

/-- A byte list read as a base-256 number (least-significant byte first). -/
def natOfBytes : List Nat → Nat
  | [] => 0
  | b :: rest => b + 256 * natOfBytes rest

/-- The MD5 digest as a single natural number (always `< 2 ^ 128`). -/
def md5Nat (msg : List Nat) : Nat := natOfBytes (md5Bytes msg)

/-- Lower-case hex digit of a value `< 16`. -/
def hexDigit (n : Nat) : Char :=
  match n with
  | 0 => '0' | 1 => '1' | 2 => '2' | 3 => '3' | 4 => '4'
  | 5 => '5' | 6 => '6' | 7 => '7' | 8 => '8' | 9 => '9'
  | 10 => 'a' | 11 => 'b' | 12 => 'c' | 13 => 'd' | 14 => 'e'
  | _ => 'f'

/-- Two hex digits of a byte. -/
def byteToHex (b : Nat) : List Char := [hexDigit (b / 16), hexDigit (b % 16)]

/-- `hexdigest()`: the 32-character lower-case hex rendering of the digest. -/
def md5Hex (msg : List Nat) : String := ⟨((md5Bytes msg).map byteToHex).flatten⟩

/-! ## Files and the content hash (`_calculate_content_hash`) -/

/-- A regular file as seen by the client: the directory it sits in (as path
components) and its base name (`pathlib.Path.name`). -/
structure FsFile where
  dir : List String
  name : String
deriving DecidableEq

/-- UTF-8 encoding of a Python string, as bytes (`str.encode('utf-8')`). -/
def utf8Bytes (s : String) : List Nat := s.toUTF8.toList.map (fun b => b.toNat)

/-- `_calculate_content_hash(file_path, file_content)`:
`hashlib.md5(file_content + file_path.name.encode('utf-8')).hexdigest()`.
Only the base name of the path is used, never its directory. -/
def calculate_content_hash (file_path : FsFile) (file_content : List Nat) : String :=
  md5Hex (file_content ++ utf8Bytes file_path.name)

/-! ## Relative paths (`_get_relative_path`)

Python paths are lists of components.  `sep` is the host path separator that
`str()` of a path would use (`"/"` on POSIX, `"\\"` on Windows); the code
normalizes with `.replace("\\", "/")`, which replaces every backslash
character. -/

/-- `PurePath.relative_to`: succeeds exactly when `b` is a leading run of `p`'s
components, returning the remaining components; raises `ValueError` (here:
`none`) otherwise. -/
def relativeTo (p b : List String) : Option (List String) :=
  if p.take b.length = b then some (p.drop b.length) else none

/-- `str()` of a path whose components are joined by the host separator. -/
def joinSep (sep : String) : List String → String
  | [] => ""
  | [x] => x
  | x :: xs => x ++ sep ++ joinSep sep xs

/-- Python `str.replace("\\", "/")` — a single-character replacement. -/
def replaceBackslash (s : String) : String :=
  ⟨s.data.map (fun c => if c = '\\' then '/' else c)⟩

/-- `str()` of a relative path: a path with no components prints as `"."`. -/
def pathToStr (sep : String) (parts : List String) : String :=
  if parts = [] then "." else joinSep sep parts

/-- `_get_relative_path(file_path, base_path)`, applied to the *parent*
directory `parent` of the file (the source calls `file_path.parent.relative_to`).
`base = none` models `base_path is None`; a failed `relative_to` (the
`ValueError` branch) also yields `"./"`. -/
def get_relative_path (sep : String) (base : Option (List String)) (parent : List String) :
    String :=
  match base with
  | none => "./"
  | some b =>
    match relativeTo parent b with
    | none => "./"
    | some rel =>
      if pathToStr sep rel = "." then "./"
      else "./" ++ replaceBackslash (pathToStr sep rel) ++ "/"

/-! ## Client state and the import protocol (`SleepHQClient`) -/

/-- The persisted token file contents (`access_token`, `expires_at`, `team_id`).
A missing key loads as `None` (`expires_at` defaults to `0`, modelled by the
caller storing `0`). -/
structure TokenRecord where
  access_token : Option String
  expires_at : Int
  team_id : Option String
deriving DecidableEq

/-- In-memory client state plus the on-disk token file (`none` = file absent). -/
structure ClientState where
  access_token : Option String
  token_expiry : Int
  team_id : Option String
  tokenFile : Option TokenRecord
deriving DecidableEq

/-- `_load_token`: read the stored token if the file exists; drop the token
(but not the team id) when `time.time() >= expires_at - 60`. -/
def load_token (now : Int) (s : ClientState) : ClientState :=
  match s.tokenFile with
  | none => s
  | some r =>
    if now ≥ r.expires_at - 60 then
      { s with access_token := none, token_expiry := 0, team_id := r.team_id }
    else
      { s with access_token := r.access_token, token_expiry := r.expires_at,
               team_id := r.team_id }

/-- `__init__` followed by `_load_token`, for a given on-disk token file. -/
def initClient (file : Option TokenRecord) (now : Int) : ClientState :=
  load_token now { access_token := none, token_expiry := 0, team_id := none, tokenFile := file }

/-- `is_authenticated()`: false if the token or the team id is falsy, false if
`time.time() >= token_expiry - 60`, true otherwise. -/
def is_authenticated (now : Int) (s : ClientState) : Bool :=
  if ¬ (pyTruthy s.access_token ∧ pyTruthy s.team_id) then false
  else if now ≥ s.token_expiry - 60 then false
  else true

/-- The shared `except HTTPError` 401 branch of `create_import`,
`add_file_to_import` and `process_import`: `self.access_token = None`.
Nothing else changes; in particular the on-disk token file is not touched. -/
def on401 (s : ClientState) : ClientState :=
  { s with access_token := none }

/-- Outcome of one HTTP request, supplied as an oracle: a non-2xx status
(`raise_for_status` → `HTTPError`), a transport failure (`RequestException`),
or a 2xx response carrying a parsed body. -/
inductive ApiResult (α : Type) where
  | httpError (status : Nat)
  | transportError
  | ok (body : α)
deriving DecidableEq

/-- `create_import()`.  The body oracle is the normalized import id
`import_data.get('id') or import_data.get('import_id')` — `none` covers a
missing/falsy id and a non-dict response.  Returns the new state and
`Optional[str]` (`none` on every failure). -/
def create_import (now : Int) (s : ClientState) (resp : ApiResult (Option String)) :
    ClientState × Option String :=
  if ¬ is_authenticated now s then (s, none)
  else
    match resp with
    | .ok body => if pyTruthy body then (s, body) else (s, none)
    | .httpError status => if status = 401 then (on401 s, none) else (s, none)
    | .transportError => (s, none)

/-- The three multipart form fields posted by `add_file_to_import`. -/
structure Descriptor where
  name : String
  path : String
  content_hash : String
deriving DecidableEq

/-- The File Upload Descriptor computed at attach time. -/
def uploadDescriptor (sep : String) (f : FsFile) (content : List Nat)
    (base : Option (List String)) : Descriptor :=
  { name := f.name
    path := get_relative_path sep base f.dir
    content_hash := calculate_content_hash f content }

/-- `add_file_to_import(import_id, file_path, base_path)`.  `fileExists` models
`file_path.exists()`; `resp` is the response oracle of the multipart POST.
Returns the new state, the boolean result, and the descriptor that was posted
(`none` when no POST was made). -/
def add_file_to_import (sep : String) (now : Int) (s : ClientState) (f : FsFile)
    (content : List Nat) (fileExists : Bool) (base : Option (List String))
    (resp : ApiResult Unit) : ClientState × Bool × Option Descriptor :=
  if ¬ is_authenticated now s then (s, false, none)
  else if ¬ fileExists then (s, false, none)
  else
    let d := uploadDescriptor sep f content base
    match resp with
    | .ok _ => (s, true, some d)
    | .httpError status =>
      if status = 401 then (on401 s, false, some d) else (s, false, some d)
    | .transportError => (s, false, some d)

/-- `process_import(import_id)`. -/
def process_import (now : Int) (s : ClientState) (resp : ApiResult Unit) :
    ClientState × Bool :=
  if ¬ is_authenticated now s then (s, false)
  else
    match resp with
    | .ok _ => (s, true)
    | .httpError status => if status = 401 then (on401 s, false) else (s, false)
    | .transportError => (s, false)

/-- Environment oracle for one `upload_files` run: the files passed in
(indexed `0, ..., n-1` in list order), their contents and existence, and the
response of each HTTP request the run may make. -/
structure UploadEnv where
  createResp : ApiResult (Option String)
  files : Nat → FsFile
  contents : Nat → List Nat
  fileExists : Nat → Bool
  addResp : Nat → ApiResult Unit
  processResp : ApiResult Unit

/-- One entry of the call trace of `upload_files`. -/
inductive Call where
  | createCall
  | addCall (i : Nat)
  | processCall
deriving DecidableEq

/-- One iteration of the step-2 loop of `upload_files`: attempt
`add_file_to_import` for file `i`, thread the client state, and record the
boolean outcome. -/
def attachStep (sep : String) (now : Int) (base : Option (List String)) (env : UploadEnv)
    (acc : ClientState × List Bool) (i : Nat) : ClientState × List Bool :=
  let r := add_file_to_import sep now acc.1 (env.files i) (env.contents i)
    (env.fileExists i) base (env.addResp i)
  (r.1, acc.2 ++ [r.2.1])

/-- The step-2 loop of `upload_files`: attempt `add_file_to_import` for every
path in order. -/
def attachAll (sep : String) (now : Int) (base : Option (List String)) (env : UploadEnv)
    (s : ClientState) (n : Nat) : ClientState × List Bool :=
  (List.range n).foldl (attachStep sep now base env) (s, [])

/-- `upload_files(file_paths, base_path, overwrite, process)` for `n` files:
(1) create an import (abort with `(0, n)` if that fails — `create_import`
never returns a falsy string, so `if not import_id` is the `none` case);
(2) attempt `add_file_to_import` for every file, counting outcomes;
(3) `if process and successful > 0`, trigger `process_import` (its result is
only logged).  Returns the final state, `(successful, failed)`, and the trace
of client calls made. -/
def upload_files (sep : String) (now : Int) (s : ClientState) (env : UploadEnv)
    (n : Nat) (base : Option (List String)) (process : Bool) :
    ClientState × (Nat × Nat) × List Call :=
  if n = 0 then (s, (0, 0), [])
  else
    let c := create_import now s env.createResp
    match c.2 with
    | none => (c.1, (0, n), [Call.createCall])
    | some _ =>
      let a := attachAll sep now base env c.1 n
      let successful := a.2.count true
      let failed := a.2.count false
      if process ∧ 0 < successful then
        ((process_import now a.1 env.processResp).1, (successful, failed),
          (Call.createCall :: (List.range n).map Call.addCall) ++ [Call.processCall])
      else
        (a.1, (successful, failed), Call.createCall :: (List.range n).map Call.addCall)

/-! ## File selection (`upload_to_sleephq` in `sleephq_uploader.py`)

The mirror tree is modelled as the list of its regular files, each a list of
path components relative to the mirror root.  Directories exist implicitly as
proper leading runs of file paths.  `downloaded` is `ezshare.downloaded_files`
with each entry already expressed relative to the mirror root (an entry not
under the root raises `ValueError` in the source and is skipped, hence
contributes nothing).  Iteration orders that CPython leaves unspecified (set
iteration, `iterdir`, `rglob`) are fixed to appearance order here; every claim
about the selection is a claim about membership, which is order-independent. -/

/-- `path.is_file()`: the path is one of the tree's regular files. -/
def isFile (tree : List (List String)) (p : List String) : Prop := p ∈ tree

instance (tree : List (List String)) (p : List String) : Decidable (isFile tree p) := by
  unfold isFile; infer_instance

/-- `path.is_dir()`: some regular file lies strictly below `p`. -/
def isDir (tree : List (List String)) (p : List String) : Prop :=
  ∃ q ∈ tree, q.take p.length = p ∧ p.length < q.length

instance (tree : List (List String)) (p : List String) : Decidable (isDir tree p) := by
  unfold isDir; infer_instance

/-- `path.exists()`: a file or a directory. -/
def pexists (tree : List (List String)) (p : List String) : Prop :=
  isFile tree p ∨ isDir tree p

instance (tree : List (List String)) (p : List String) : Decidable (pexists tree p) := by
  unfold pexists; infer_instance

/-- `path.name`: the last component. -/
def baseName (p : List String) : String := p.getLastD ""

/-- Python `name.startswith('.')`: the first character is a dot. -/
def startsWithDot (s : String) : Bool :=
  match s.data with
  | [] => false
  | c :: _ => c = '.'

/-- The entries `rglob('*')` yields below `pre` that are regular files (the
directories it also yields are rejected by `add_file`'s `is_file()` check, so
folding over the files alone is equivalent). -/
def filesUnder (tree : List (List String)) (pre : List String) : List (List String) :=
  tree.filter (fun p => p.take pre.length = pre ∧ pre.length < p.length)

/-- The inner `add_file(path)` helper: append `path` if it is a regular file,
its name does not start with `'.'`, and it was not already added. -/
def add_file (tree : List (List String)) (acc : List (List String)) (p : List String) :
    List (List String) :=
  if isFile tree p ∧ startsWithDot (baseName p) = false ∧ p ∉ acc then acc ++ [p] else acc

/-- The three mandatory root files (a Python `set`; the iteration order is
unspecified in CPython and fixed here — selection membership is unaffected). -/
def mandatoryFiles : List String := ["STR.edf", "Identification.crc", "Identification.json"]

/-- The active `DATALOG` date-folder names: for each downloaded file whose
relative path has `DATALOG` as its first component and at least three
components, the second component. -/
def activeFolders (downloaded : List (List String)) : List String :=
  (downloaded.filterMap (fun p =>
    match p with
    | "DATALOG" :: d :: _ :: _ => some d
    | _ => none)).dedup

/-- `DATALOG`'s `iterdir()` entries (by name), keeping only directories. -/
def datalogChildren (tree : List (List String)) : List String :=
  ((tree.filterMap (fun p =>
    match p with
    | "DATALOG" :: d :: _ => some d
    | _ => none)).dedup).filter (fun d => isDir tree ["DATALOG", d])

/-- Step 1 of the selection: for each mandatory root file name, add the root
file when it exists. -/
def mandatoryStep (tree : List (List String)) (acc : List (List String)) (nm : String) :
    List (List String) :=
  if pexists tree [nm] then add_file tree acc [nm] else acc

/-- The selection after step 1 (mandatory root files). -/
def mandatoryAcc (tree : List (List String)) : List (List String) :=
  mandatoryFiles.foldl (mandatoryStep tree) []

/-- The selection after step 2 (the whole `SETTINGS/` subtree, if present). -/
def settingsAcc (tree : List (List String)) : List (List String) :=
  if pexists tree ["SETTINGS"] then
    (filesUnder tree ["SETTINGS"]).foldl (add_file tree) (mandatoryAcc tree)
  else mandatoryAcc tree

/-- Step 3 of the selection, for one `DATALOG` date-folder: include its whole
subtree when forced or active. -/
def datalogStep (tree : List (List String)) (active : List String) (force : Bool)
    (acc : List (List String)) (d : String) : List (List String) :=
  if force = true ∨ d ∈ active then
    (filesUnder tree ["DATALOG", d]).foldl (add_file tree) acc
  else acc

/-- The file-selection logic of `upload_to_sleephq`: mandatory root files when
present, the whole `SETTINGS/` subtree, and each `DATALOG` date-folder that is
forced or active. -/
def selectFiles (tree : List (List String)) (downloaded : List (List String))
    (force : Bool) : List (List String) :=
  let active := if force then [] else activeFolders downloaded
  if pexists tree ["DATALOG"] then
    (datalogChildren tree).foldl (datalogStep tree active force) (settingsAcc tree)
  else settingsAcc tree

/-! ## Upload history tracker (`upload_tracker.py`)

The tracker's `uploads` dict maps `str(file_path.resolve())` to
`{'uploaded_at': json.dumps(str(st_mtime)), 'filename': name}`.  A tracked
file is modelled with its canonicalized absolute path, name, and the string
rendering of its modification time; dicts are functions to `Option`; `disk`
is the JSON file `_save_tracker` writes. -/

/-- A file as the tracker sees it. -/
structure TrackFile where
  resolved : String
  name : String
  mtimeStr : String

/-- One upload-history value. -/
structure TrackEntry where
  uploaded_at : String
  filename : String
deriving DecidableEq

/-- `json.dumps` of a plain string without characters needing escapes (the
`str(st_mtime)` values stored here are digit/dot strings). -/
def jsonDumpsStr (s : String) : String := "\"" ++ s ++ "\""

/-- In-memory table plus the persisted file contents. -/
structure TrackerState where
  uploads : String → Option TrackEntry
  disk : String → Option TrackEntry

/-- `mark_uploaded`: record the entry under the resolved path, then
`_save_tracker()` (write the whole table) before returning. -/
def mark_uploaded (f : TrackFile) (t : TrackerState) : TrackerState :=
  let up := fun k =>
    if k = f.resolved then some ⟨jsonDumpsStr f.mtimeStr, f.name⟩ else t.uploads k
  { uploads := up, disk := up }

/-- `is_uploaded`: key membership. -/
def is_uploaded (f : TrackFile) (t : TrackerState) : Bool :=
  (t.uploads f.resolved).isSome

/-- `clear_tracker`: empty the table and persist. -/
def clear_tracker (_t : TrackerState) : TrackerState :=
  { uploads := fun _ => none, disk := fun _ => none }

/-- `remove_file`: delete the key and persist — but only when it was present. -/
def remove_file (f : TrackFile) (t : TrackerState) : TrackerState :=
  if (t.uploads f.resolved).isSome then
    let up := fun k => if k = f.resolved then none else t.uploads k
    { uploads := up, disk := up }
  else t

/-! ## Sample states used by witnesses and counterexamples -/

/-- A stored credential that is still far from expiry at `now = 0`. -/
def sampleRecord : TokenRecord :=
  { access_token := some "tok", expires_at := 10000, team_id := some "team" }

/-- An authenticated client whose token file holds `sampleRecord`. -/
def sampleState : ClientState :=
  { access_token := some "tok", token_expiry := 10000, team_id := some "team",
    tokenFile := some sampleRecord }

/-- A concrete tracked file. -/
def sampleTrackFile : TrackFile :=
  { resolved := "/data/sd/STR.edf", name := "STR.edf", mtimeStr := "1693459200.0" }

/-- A tracker with an empty, persisted table. -/
def emptyTracker : TrackerState :=
  { uploads := fun _ => none, disk := fun _ => none }

/-! ## MD5 validation against the RFC 1321 test vectors -/

set_option maxRecDepth 100000 in
example : md5Hex [] = "d41d8cd98f00b204e9800998ecf8427e" := by decide

set_option maxRecDepth 100000 in
example : md5Hex [97, 98, 99] = "900150983cd24fb0d6963f7d28e17f72" := by decide

end EzShare

namespace EzShare

/-! ## Theorems -/

/-- Truthiness of an optional string, unfolded. -/
lemma pyTruthy_iff (o : Option String) : pyTruthy o = true ↔ ∃ t, o = some t ∧ t ≠ "" := by
  cases o <;> simp [pyTruthy]

/-- Unfolding of `is_authenticated`. -/
lemma is_authenticated_iff (now : Int) (s : ClientState) :
    is_authenticated now s = true ↔
      (∃ t, s.access_token = some t ∧ t ≠ "")
        ∧ (∃ g, s.team_id = some g ∧ g ≠ "")
        ∧ now < s.token_expiry - 60 := by
  rw [← pyTruthy_iff, ← pyTruthy_iff]
  unfold is_authenticated
  cases ha : pyTruthy s.access_token with
  | false => simp [ha]
  | true =>
    cases hg : pyTruthy s.team_id with
    | false => simp [hg]
    | true =>
      by_cases h2 : now ≥ s.token_expiry - 60
      · simp [h2]
      · simp [h2]
        omega

/-- C6: `is_authenticated()` returns true iff the access token is present and
non-empty, the team identifier is present (non-empty), and the current time is
strictly earlier than the stored expiry minus 60 seconds; in particular, with
token and team identifier present, it returns false whenever expiry is within
60 seconds of now and true when expiry is strictly more than 60 seconds away. -/
theorem c6_is_authenticated (now : Int) (s : ClientState) :
    (is_authenticated now s = true ↔
      (∃ t, s.access_token = some t ∧ t ≠ "")
        ∧ (∃ g, s.team_id = some g ∧ g ≠ "")
        ∧ now < s.token_expiry - 60)
  ∧ ((∃ t, s.access_token = some t ∧ t ≠ "") →
      (∃ g, s.team_id = some g ∧ g ≠ "") →
        ((s.token_expiry - now ≤ 60 → is_authenticated now s = false)
          ∧ (60 < s.token_expiry - now → is_authenticated now s = true))) := by
  refine ⟨is_authenticated_iff now s, fun ht hg => ⟨fun h => ?_, fun h => ?_⟩⟩
  · cases h' : is_authenticated now s with
    | false => rfl
    | true =>
      rcases (is_authenticated_iff now s).mp h' with ⟨-, -, hlt⟩
      omega
  · exact (is_authenticated_iff now s).mpr ⟨ht, hg, by omega⟩

/-- Witness for C6 at a concrete state: `sampleState` has a token and team id,
and at `now = 0` its expiry `10000` is more than 60 seconds away. -/
theorem c6_witness : is_authenticated 0 sampleState = true :=
  ((c6_is_authenticated 0 sampleState).2 ⟨"tok", rfl, by decide⟩
    ⟨"team", rfl, by decide⟩).2 (by decide)

/-- C9: every mutating tracker operation persists the whole table before
returning, so after any such call the stored table equals the in-memory table
(for `remove_file`, which only rewrites the file when the key was present,
this preserves the equality); `mark_uploaded(p)` records under p's
canonicalized absolute path a value holding a modification-time marker and p's
base name; `is_uploaded(p)` is true immediately after `mark_uploaded(p)` and
false immediately after `remove_file(p)`. -/
theorem c9_tracker_persistence (f : TrackFile) (t : TrackerState) :
    (mark_uploaded f t).disk = (mark_uploaded f t).uploads
  ∧ (clear_tracker t).disk = (clear_tracker t).uploads
  ∧ (t.disk = t.uploads → (remove_file f t).disk = (remove_file f t).uploads)
  ∧ (mark_uploaded f t).uploads f.resolved
      = some { uploaded_at := jsonDumpsStr f.mtimeStr, filename := f.name }
  ∧ is_uploaded f (mark_uploaded f t) = true
  ∧ is_uploaded f (remove_file f t) = false := by
  refine ⟨rfl, rfl, fun h => ?_, ?_, ?_, ?_⟩
  · unfold remove_file
    split
    · rfl
    · exact h
  · simp [mark_uploaded]
  · simp [is_uploaded, mark_uploaded]
  · unfold is_uploaded remove_file
    split
    · simp
    · next h => simpa using h

/-- Witness for C9 at a concrete file and tracker state. -/
theorem c9_witness :
    (remove_file sampleTrackFile emptyTracker).disk
      = (remove_file sampleTrackFile emptyTracker).uploads :=
  (c9_tracker_persistence sampleTrackFile emptyTracker).2.2.1 rfl

/-- C4, counterexample: the claim says a 401 invalidates the on-disk credential
so re-authentication is forced on the next run.  At the concrete authenticated
state `sampleState` (time `0`), a 401 on `create_import` leaves the token file
untouched, and a fresh client loading that file is authenticated again — no
re-authentication is forced. -/
theorem c4_counterexample :
    (create_import 0 sampleState (ApiResult.httpError 401)).1.tokenFile
        = some sampleRecord
  ∧ is_authenticated 0
      (initClient (create_import 0 sampleState (ApiResult.httpError 401)).1.tokenFile 0)
        = true := by decide

/-- C4, amended: a 401 on any bearer-authenticated call (`create_import`,
`add_file_to_import`, `process_import`) clears the in-memory credential only,
so a subsequent `is_authenticated()` in the same process returns false; the
on-disk credential file is left unchanged, so re-authentication is not
necessarily forced on the next run. -/
theorem c4_amended (now : Int) (s : ClientState) (h : is_authenticated now s = true) :
    ((create_import now s (ApiResult.httpError 401)).1 = on401 s)
  ∧ (∀ sep f content base,
      (add_file_to_import sep now s f content true base (ApiResult.httpError 401)).1 = on401 s)
  ∧ ((process_import now s (ApiResult.httpError 401)).1 = on401 s)
  ∧ (on401 s).access_token = none
  ∧ is_authenticated now (on401 s) = false
  ∧ (on401 s).tokenFile = s.tokenFile := by
  refine ⟨?_, fun sep f content base => ?_, ?_, rfl, ?_, rfl⟩
  · simp [create_import, h]
  · simp [add_file_to_import, h]
  · simp [process_import, h]
  · simp [is_authenticated, on401, pyTruthy]

/-- Witness for C4 (amended) at the concrete state `sampleState`, time `0`. -/
theorem c4_witness :
    (create_import 0 sampleState (ApiResult.httpError 401)).1 = on401 sampleState :=
  (c4_amended 0 sampleState (by decide)).1

/-- C5, counterexample: the claim says `create_import` returns an error value
distinct from the one returned for any other failure when it receives a 401.
At the concrete authenticated state `sampleState`, the value returned for a
401, for a transport error, for another HTTP error (500) and for a 2xx
response missing an import id is the same `None`. -/
theorem c5_counterexample :
    (create_import 0 sampleState (ApiResult.httpError 401)).2
        = (create_import 0 sampleState ApiResult.transportError).2
  ∧ (create_import 0 sampleState (ApiResult.httpError 500)).2
        = (create_import 0 sampleState (ApiResult.httpError 401)).2
  ∧ (create_import 0 sampleState (ApiResult.ok none)).2
        = (create_import 0 sampleState (ApiResult.httpError 401)).2 := by decide

/-- C5, amended: when `create_import` receives a 401 it clears the held token
and returns `none` — the same return value as every other failure (transport
error, other non-2xx, missing import id).  The caller can distinguish "retry
after re-auth" only through the state: after a 401, `is_authenticated()` is
false, while other failures leave the state unchanged. -/
theorem c5_amended (now : Int) (s : ClientState) (h : is_authenticated now s = true) :
    create_import now s (ApiResult.httpError 401) = (on401 s, none)
  ∧ (∀ status, status ≠ 401 →
      create_import now s (ApiResult.httpError status) = (s, none))
  ∧ create_import now s ApiResult.transportError = (s, none)
  ∧ create_import now s (ApiResult.ok none) = (s, none)
  ∧ is_authenticated now (on401 s) = false := by
  refine ⟨?_, fun status hst => ?_, ?_, ?_, ?_⟩
  · simp [create_import, h]
  · simp [create_import, h, hst]
  · simp [create_import, h]
  · simp [create_import, h, pyTruthy]
  · simp [is_authenticated, on401, pyTruthy]

/-- Witness for C5 (amended) at the concrete state `sampleState`, time `0`. -/
theorem c5_witness :
    create_import 0 sampleState (ApiResult.httpError 401) = (on401 sampleState, none) :=
  (c5_amended 0 sampleState (by decide)).1

/-- C10: a file whose path cannot be expressed as relative to the base path —
or any file when no base path is supplied — is assigned the root relative path
`"./"` rather than causing `add_file_to_import` to fail: the boolean result of
`add_file_to_import` does not depend on the base path at all. -/
theorem c10_relative_path_total :
    (∀ sep parent, get_relative_path sep none parent = "./")
  ∧ (∀ sep b parent, relativeTo parent b = none →
      get_relative_path sep (some b) parent = "./")
  ∧ (∀ sep now s f content fileExists base1 base2 resp,
      (add_file_to_import sep now s f content fileExists base1 resp).2.1
        = (add_file_to_import sep now s f content fileExists base2 resp).2.1) := by
  refine ⟨fun sep parent => rfl, fun sep b parent h => ?_, ?_⟩
  · simp [get_relative_path, h]
  · intro sep now s f content fileExists base1 base2 resp
    unfold add_file_to_import
    split
    · rfl
    · split
      · rfl
      · cases resp with
        | ok _ => rfl
        | transportError => rfl
        | httpError status =>
          by_cases h4 : status = 401 <;> simp [h4]

/-- Witness for C10: `["Y"]` is not relative to the base `["X"]`, and the
relative path degrades to `"./"`. -/
theorem c10_witness : get_relative_path "/" (some ["X"]) ["Y"] = "./" :=
  c10_relative_path_total.2.1 "/" ["X"] ["Y"] (by decide)

/-- The mirror tree of the incremental-selection scenario: mandatory files and
`random.txt` at the root, `SETTINGS/settings.dat`, and two `DATALOG` date
folders. -/
def c2Tree : List (List String) :=
  [["STR.edf"], ["Identification.crc"], ["Identification.json"], ["random.txt"],
   ["SETTINGS", "settings.dat"], ["DATALOG", "20230101", "file1.edf"],
   ["DATALOG", "20230102", "file2.edf"]]

/-- C2: with the change set `[DATALOG/20230102/file2.edf]` and `force = false`,
the selection is exactly `STR.edf`, `Identification.crc`, `Identification.json`,
`SETTINGS/settings.dat` and `DATALOG/20230102/file2.edf`; `random.txt` and
`DATALOG/20230101/file1.edf` are excluded. -/
theorem c2_incremental_selection :
    selectFiles c2Tree [["DATALOG", "20230102", "file2.edf"]] false
      = [["STR.edf"], ["Identification.crc"], ["Identification.json"],
         ["SETTINGS", "settings.dat"], ["DATALOG", "20230102", "file2.edf"]] := by decide

/-- `relative_to` of a path below the base yields the remaining components. -/
lemma relativeTo_append (b rel : List String) : relativeTo (b ++ rel) b = some rel := by
  unfold relativeTo
  rw [List.take_left, List.drop_left, if_pos rfl]

/-- Mapping the backslash replacement over characters none of which is a
backslash changes nothing. -/
lemma map_repl_of_no_bs (l : List Char) (h : ('\\' : Char) ∉ l) :
    l.map (fun c => if c = '\\' then '/' else c) = l := by
  induction l with
  | nil => rfl
  | cons c t ih =>
    have hc : ¬ c = '\\' := fun hc => h (by rw [hc]; exact List.mem_cons_self _ t)
    rw [List.map_cons, if_neg hc, ih (fun hm => h (List.mem_cons_of_mem c hm))]

/-- `replace("\\", "/")` is the identity on a `"/"`-joined path whose
components contain no backslash. -/
lemma repl_joinSep_slash :
    ∀ rel : List String, (∀ s ∈ rel, ('\\' : Char) ∉ s.data) →
      replaceBackslash (joinSep "/" rel) = joinSep "/" rel
  | [], _ => rfl
  | [x], h => by
    apply String.ext
    exact map_repl_of_no_bs x.data (h x (List.mem_singleton_self x))
  | x :: y :: ys, h => by
    apply String.ext
    show ((x ++ "/" ++ joinSep "/" (y :: ys)).data).map _ = (x ++ "/" ++ joinSep "/" (y :: ys)).data
    have hrec := repl_joinSep_slash (y :: ys) (fun s hs => h s (List.mem_cons_of_mem x hs))
    have hrec' : (joinSep "/" (y :: ys)).data.map (fun c => if c = '\\' then '/' else c)
        = (joinSep "/" (y :: ys)).data := congrArg String.data hrec
    have hsep : ("/" : String).data.map (fun c => if c = '\\' then '/' else c)
        = ("/" : String).data := by decide
    rw [String.data_append, String.data_append, List.map_append, List.map_append,
      map_repl_of_no_bs x.data (h x (List.mem_cons_self x (y :: ys))), hrec', hsep]

/-- `replace("\\", "/")` turns a `"\\"`-joined path with backslash-free
components into the `"/"`-joined path. -/
lemma repl_joinSep_bs :
    ∀ rel : List String, (∀ s ∈ rel, ('\\' : Char) ∉ s.data) →
      replaceBackslash (joinSep "\\" rel) = joinSep "/" rel
  | [], _ => rfl
  | [x], h => by
    apply String.ext
    exact map_repl_of_no_bs x.data (h x (List.mem_singleton_self x))
  | x :: y :: ys, h => by
    apply String.ext
    show ((x ++ "\\" ++ joinSep "\\" (y :: ys)).data).map _
        = (x ++ "/" ++ joinSep "/" (y :: ys)).data
    have hrec := repl_joinSep_bs (y :: ys) (fun s hs => h s (List.mem_cons_of_mem x hs))
    have hrec' : (joinSep "\\" (y :: ys)).data.map (fun c => if c = '\\' then '/' else c)
        = (joinSep "/" (y :: ys)).data := congrArg String.data hrec
    have hsep : ("\\" : String).data.map (fun c => if c = '\\' then '/' else c)
        = ("/" : String).data := by decide
    rw [String.data_append, String.data_append, List.map_append, List.map_append,
      map_repl_of_no_bs x.data (h x (List.mem_cons_self x (y :: ys))), hrec', hsep,
      String.data_append, String.data_append]

/-- A nonempty join under a one-character separator other than `'.'` never
prints as `"."` when no component is `"."`. -/
lemma joinSep_ne_dot (sep : String) (c : Char) (hsep : sep.data = [c]) (hc : c ≠ '.') :
    ∀ rel : List String, rel ≠ [] → "." ∉ rel → joinSep sep rel ≠ "."
  | [], hne, _ => absurd rfl hne
  | [x], _, hdot => by
    intro hx
    have hx' : x = "." := hx
    exact hdot (List.mem_singleton.mpr hx'.symm)
  | x :: y :: ys, _, hdot => by
    intro hx
    have hd := congrArg String.data hx
    rw [show joinSep sep (x :: y :: ys) = x ++ sep ++ joinSep sep (y :: ys) from rfl,
      String.data_append, String.data_append, hsep] at hd
    cases hx0 : x.data with
    | nil =>
      rw [hx0] at hd
      cases hj0 : (joinSep sep (y :: ys)).data with
      | nil =>
        rw [hj0] at hd
        simp at hd
        exact hc hd
      | cons a t =>
        rw [hj0] at hd
        simp at hd
    | cons a t =>
      rw [hx0] at hd
      simp at hd

/-- C8: a file directly at the mirror root yields relative path `"./"`; a file
in subdirectory `rel` (e.g. two levels down under `A/B`) yields
`"./" ++ rel joined with forward slashes ++ "/"` — with a trailing slash —
whether the host renders paths with `"/"` or with `"\\"`.  The hypotheses are
the pathlib invariants that components contain no backslash and that no
component is `"."`. -/
theorem c8_relative_path_format (b rel : List String)
    (hbs : ∀ s ∈ rel, ('\\' : Char) ∉ s.data)
    (hdot : "." ∉ rel) :
    (rel = [] → get_relative_path "/" (some b) (b ++ rel) = "./"
              ∧ get_relative_path "\\" (some b) (b ++ rel) = "./")
  ∧ (rel ≠ [] → get_relative_path "/" (some b) (b ++ rel) = "./" ++ joinSep "/" rel ++ "/"
              ∧ get_relative_path "\\" (some b) (b ++ rel)
                  = "./" ++ joinSep "/" rel ++ "/") := by
  constructor
  · rintro rfl
    have hrel : relativeTo b b = some [] := by simpa using relativeTo_append b []
    constructor <;> simp [get_relative_path, hrel, pathToStr]
  · intro hne
    have hrel := relativeTo_append b rel
    have hslash : pathToStr "/" rel = joinSep "/" rel := if_neg hne
    have hbsep : pathToStr "\\" rel = joinSep "\\" rel := if_neg hne
    have h1 : joinSep "/" rel ≠ "." :=
      joinSep_ne_dot "/" '/' (by decide) (by decide) rel hne hdot
    have h2 : joinSep "\\" rel ≠ "." :=
      joinSep_ne_dot "\\" '\\' (by decide) (by decide) rel hne hdot
    constructor
    · simp only [get_relative_path, hrel, hslash, if_neg h1]
      rw [repl_joinSep_slash rel hbs]
    · simp only [get_relative_path, hrel, hbsep, if_neg h2]
      rw [repl_joinSep_bs rel hbs]

/-- Witness for C8: the file `root/A/B/f.edf` (parent `root/A/B`, base `root`)
yields `"./A/B/"` under both host separator conventions. -/
theorem c8_witness :
    get_relative_path "/" (some ["root"]) ["root", "A", "B"] = "./A/B/"
  ∧ get_relative_path "\\" (some ["root"]) ["root", "A", "B"] = "./A/B/" := by
  have h := (c8_relative_path_format ["root"] ["A", "B"] (by decide) (by decide)).2
    (by decide)
  exact ⟨h.1.trans (by decide), h.2.trans (by decide)⟩

/-- The MD5 digest has exactly 16 bytes. -/
lemma md5Bytes_length (msg : List Nat) : (md5Bytes msg).length = 16 := by
  simp [md5Bytes, wordLE]

/-- Every byte of the MD5 digest is below 256. -/
lemma md5Bytes_bound (msg : List Nat) : ∀ b ∈ md5Bytes msg, b < 256 := by
  intro b hb
  simp [md5Bytes, wordLE] at hb
  omega

/-- A byte list is bounded by 256 to its length. -/
lemma natOfBytes_lt : ∀ l : List Nat, (∀ b ∈ l, b < 256) → natOfBytes l < 256 ^ l.length := by
  intro l
  induction l with
  | nil => intro _; simp [natOfBytes]
  | cons b t ih =>
    intro h
    have hb : b < 256 := h b (List.mem_cons_self b t)
    have ht : natOfBytes t < 256 ^ t.length := ih (fun x hx => h x (List.mem_cons_of_mem b hx))
    have h1 : b + 256 * natOfBytes t + 1 ≤ 256 * (natOfBytes t + 1) := by omega
    have h2 : 256 * (natOfBytes t + 1) ≤ 256 * 256 ^ t.length := by
      exact Nat.mul_le_mul_left 256 ht
    calc natOfBytes (b :: t) = b + 256 * natOfBytes t := rfl
      _ < 256 * (natOfBytes t + 1) := by omega
      _ ≤ 256 * 256 ^ t.length := h2
      _ = 256 ^ (b :: t).length := by rw [List.length_cons, pow_succ, Nat.mul_comm]

/-- Base-256 readings of equal-length bounded byte lists coincide only on
equal lists. -/
lemma natOfBytes_inj : ∀ l1 l2 : List Nat, l1.length = l2.length →
    (∀ b ∈ l1, b < 256) → (∀ b ∈ l2, b < 256) →
    natOfBytes l1 = natOfBytes l2 → l1 = l2 := by
  intro l1
  induction l1 with
  | nil =>
    intro l2 hlen _ _ _
    exact (List.length_eq_zero.mp hlen.symm).symm
  | cons b1 t1 ih =>
    intro l2 hlen h1 h2 heq
    cases l2 with
    | nil => simp at hlen
    | cons b2 t2 =>
      have hb1 : b1 < 256 := h1 b1 (List.mem_cons_self b1 t1)
      have hb2 : b2 < 256 := h2 b2 (List.mem_cons_self b2 t2)
      have heq' : b1 + 256 * natOfBytes t1 = b2 + 256 * natOfBytes t2 := heq
      have hb : b1 = b2 ∧ natOfBytes t1 = natOfBytes t2 := by omega
      have ht : t1 = t2 := ih t2 (by simpa using hlen)
        (fun x hx => h1 x (List.mem_cons_of_mem b1 hx))
        (fun x hx => h2 x (List.mem_cons_of_mem b2 hx)) hb.2
      rw [hb.1, ht]

/-- The whole MD5 value fits in 128 bits. -/
lemma md5Nat_lt (msg : List Nat) : md5Nat msg < 2 ^ 128 := by
  have h := natOfBytes_lt (md5Bytes msg) (md5Bytes_bound msg)
  rw [md5Bytes_length] at h
  have h2 : (256 : Nat) ^ 16 = 2 ^ 128 := by norm_num
  rw [h2] at h
  exact h

/-- Equal digests render to equal hex strings. -/
lemma md5Hex_congr {m1 m2 : List Nat} (h : md5Bytes m1 = md5Bytes m2) :
    md5Hex m1 = md5Hex m2 := by
  unfold md5Hex
  rw [h]

/-- The name used for pigeonhole collisions: `k` letters `a`. -/
def aName (k : Nat) : String := String.mk (List.replicate k 'a')

/-- Distinct lengths give distinct names. -/
lemma aName_injective : Function.Injective aName := by
  intro k1 k2 h
  have hd : List.replicate k1 'a' = List.replicate k2 'a' := congrArg String.data h
  have := congrArg List.length hd
  simpa using this

/-- The MD5 value packaged with its bound. -/
def md5Fin (msg : List Nat) : Fin (2 ^ 128) := ⟨md5Nat msg, md5Nat_lt msg⟩

/-- `md5Fin` carries the MD5 value. -/
lemma md5Fin_val (msg : List Nat) : (md5Fin msg).val = md5Nat msg := rfl

/-- C7, counterexample: the claim that changing the base name with unchanged
bytes always changes the content hash is false — the hash is a fixed-size
(128-bit) digest, so among the infinitely many possible base names two
distinct ones must produce the same hash for the same (empty) content. -/
theorem c7_counterexample :
    ¬ ∀ (content : List Nat) (f g : FsFile),
        f.name ≠ g.name →
          calculate_content_hash f content ≠ calculate_content_hash g content := by
  intro h
  obtain ⟨k1, k2, hne, heq⟩ := Finite.exists_ne_map_eq_of_infinite
    (fun k : Nat => md5Fin (utf8Bytes (aName k)))
  have heq' : md5Nat (utf8Bytes (aName k1)) = md5Nat (utf8Bytes (aName k2)) := by
    rw [← md5Fin_val, ← md5Fin_val]
    exact congrArg Fin.val heq
  have hbytes : md5Bytes (utf8Bytes (aName k1)) = md5Bytes (utf8Bytes (aName k2)) :=
    natOfBytes_inj _ _ (by rw [md5Bytes_length, md5Bytes_length])
      (md5Bytes_bound _) (md5Bytes_bound _) heq'
  have hnames : ({ dir := [], name := aName k1 } : FsFile).name
      ≠ ({ dir := [], name := aName k2 } : FsFile).name :=
    fun hn => hne (aName_injective hn)
  apply h [] { dir := [], name := aName k1 } { dir := [], name := aName k2 } hnames
  show md5Hex ([] ++ utf8Bytes (aName k1)) = md5Hex ([] ++ utf8Bytes (aName k2))
  rw [List.nil_append, List.nil_append]
  exact md5Hex_congr hbytes

/-- The hex rendering doubles the byte count. -/
lemma flatten_byteToHex_length (l : List Nat) :
    ((l.map byteToHex).flatten).length = 2 * l.length := by
  induction l with
  | nil => rfl
  | cons b t ih =>
    simp only [List.map_cons, List.flatten_cons, List.length_append, ih, byteToHex,
      List.length_cons]
    simp [List.length_cons]
    omega

/-- C7, amended: the content identity hash equals the fixed-size (32 hex
character) MD5 digest of the file's bytes concatenated with the UTF-8
encoding of its base name; it is a pure function of (bytes, base name) only —
two files with identical bytes and identical base names hash identically
regardless of directory location.  (Universal rename-sensitivity cannot hold:
a fixed-size digest over arbitrarily many names admits collisions, see the
counterexample.) -/
theorem c7_content_hash :
    (∀ (f : FsFile) (content : List Nat),
        calculate_content_hash f content = md5Hex (content ++ utf8Bytes f.name))
  ∧ (∀ (f g : FsFile) (content : List Nat), f.name = g.name →
        calculate_content_hash f content = calculate_content_hash g content)
  ∧ (∀ msg : List Nat, (md5Hex msg).length = 32) := by
  refine ⟨fun f content => rfl, fun f g content h => ?_, fun msg => ?_⟩
  · unfold calculate_content_hash
    rw [h]
  · show ((md5Bytes msg).map byteToHex).flatten.length = 32
    rw [flatten_byteToHex_length, md5Bytes_length]

/-- Witness for C7 (amended): same bytes and same base name under different
directories hash identically. -/
theorem c7_witness :
    calculate_content_hash { dir := ["DATALOG", "20230101"], name := "x.edf" } [1, 2, 3]
      = calculate_content_hash { dir := ["SETTINGS"], name := "x.edf" } [1, 2, 3] :=
  c7_content_hash.2.1 _ _ _ rfl

/-- `create_import` never returns a present-but-falsy import id, so
`upload_files`' `if not import_id` test coincides with the `none` test. -/
lemma create_import_no_falsy (now : Int) (s : ClientState)
    (resp : ApiResult (Option String)) :
    (create_import now s resp).2 = none ∨ pyTruthy (create_import now s resp).2 = true := by
  unfold create_import
  split
  · exact Or.inl rfl
  · cases resp with
    | ok body =>
      by_cases hb : pyTruthy body = true
      · simp [hb]
      · simp [hb]
    | httpError status =>
      by_cases h4 : status = 401 <;> simp [h4]
    | transportError => exact Or.inl rfl

/-- Each attach step appends exactly one outcome. -/
lemma foldl_attachStep_length (sep : String) (now : Int) (base : Option (List String))
    (env : UploadEnv) :
    ∀ (l : List Nat) (acc : ClientState × List Bool),
      ((l.foldl (attachStep sep now base env) acc).2).length = acc.2.length + l.length := by
  intro l
  induction l with
  | nil => intro acc; simp
  | cons i t ih =>
    intro acc
    rw [List.foldl_cons, ih]
    simp [attachStep]
    omega

/-- The attach loop produces one outcome per file. -/
lemma attachAll_length (sep : String) (now : Int) (base : Option (List String))
    (env : UploadEnv) (s : ClientState) (n : Nat) :
    (attachAll sep now base env s n).2.length = n := by
  unfold attachAll
  rw [foldl_attachStep_length]
  simp

/-- A boolean list splits into its `true`s and `false`s. -/
lemma count_true_add_count_false (l : List Bool) :
    l.count true + l.count false = l.length := by
  induction l with
  | nil => rfl
  | cons b t ih =>
    cases b <;> simp [List.count_cons] <;> omega

/-- The attach loop only reads the per-file fields of the environment. -/
lemma attachStep_env_congr (sep : String) (now : Int) (base : Option (List String))
    (env env2 : UploadEnv) (hf : env2.files = env.files) (hc : env2.contents = env.contents)
    (he : env2.fileExists = env.fileExists) (ha : env2.addResp = env.addResp) :
    attachStep sep now base env2 = attachStep sep now base env := by
  funext acc i
  simp only [attachStep, hf, hc, he, ha]

/-- C1: for every non-empty list of file paths, `upload_files` first calls
`create_import`; if that fails it makes no add-file or process calls and
returns `(0, n)`; otherwise it attempts `add_file_to_import` for every path
(the loop always runs all `n` attach calls), calls `process_import` exactly
when at least one attach succeeded (and `process = true`), and returns
`(successful, failed)` equal to the attach outcomes — unchanged by whether the
processing trigger succeeds. -/
theorem c1_upload_files_protocol (sep : String) (now : Int) (s : ClientState)
    (env : UploadEnv) (n : Nat) (base : Option (List String)) (process : Bool)
    (hn : 0 < n) :
    ((upload_files sep now s env n base process).2.2.head? = some Call.createCall)
  ∧ ((create_import now s env.createResp).2 = none →
      upload_files sep now s env n base process
        = ((create_import now s env.createResp).1, (0, n), [Call.createCall]))
  ∧ (∀ id, (create_import now s env.createResp).2 = some id →
      ((upload_files sep now s env n base process).2.2
          = (Call.createCall :: (List.range n).map Call.addCall)
            ++ (if process ∧ 0 < (attachAll sep now base env
                  (create_import now s env.createResp).1 n).2.count true
                then [Call.processCall] else []))
      ∧ ((upload_files sep now s env n base process).2.1
          = ((attachAll sep now base env (create_import now s env.createResp).1 n).2.count true,
             (attachAll sep now base env (create_import now s env.createResp).1 n).2.count false))
      ∧ ((attachAll sep now base env (create_import now s env.createResp).1 n).2.count true
          + (attachAll sep now base env (create_import now s env.createResp).1 n).2.count false
          = n))
  ∧ (∀ env2 : UploadEnv, env2.createResp = env.createResp → env2.files = env.files →
      env2.contents = env.contents → env2.fileExists = env.fileExists →
      env2.addResp = env.addResp →
      (upload_files sep now s env2 n base process).2.1
        = (upload_files sep now s env n base process).2.1) := by
  have h0 : ¬ n = 0 := by omega
  have hcount : ∀ s1, (attachAll sep now base env s1 n).2.count true
      + (attachAll sep now base env s1 n).2.count false = n := fun s1 => by
    rw [count_true_add_count_false, attachAll_length]
  refine ⟨?_, ?_, ?_, ?_⟩
  · rcases hcr : (create_import now s env.createResp).2 with _ | id
    · simp [upload_files, h0, hcr]
    · by_cases hp : process = true ∧ true ∈ (attachAll sep now base env
          (create_import now s env.createResp).1 n).2
      · simp [upload_files, h0, hcr, hp]
      · simp [upload_files, h0, hcr, hp]
  · intro hcr
    simp [upload_files, h0, hcr]
  · intro id hcr
    refine ⟨?_, ?_, hcount _⟩
    · by_cases hp : process = true ∧ true ∈ (attachAll sep now base env
          (create_import now s env.createResp).1 n).2
      · simp [upload_files, h0, hcr, hp]
      · simp [upload_files, h0, hcr, hp]
    · by_cases hp : process = true ∧ true ∈ (attachAll sep now base env
          (create_import now s env.createResp).1 n).2
      · simp [upload_files, h0, hcr, hp]
      · simp [upload_files, h0, hcr, hp]
  · intro env2 hcr hf hc he ha
    have hatt : ∀ s1 m, attachAll sep now base env2 s1 m = attachAll sep now base env s1 m :=
      fun s1 m => by
        unfold attachAll
        rw [attachStep_env_congr sep now base env env2 hf hc he ha]
    rcases hcr2 : (create_import now s env.createResp).2 with _ | id
    · simp [upload_files, h0, hcr, hcr2]
    · by_cases hp : process = true ∧ true ∈ (attachAll sep now base env
          (create_import now s env.createResp).1 n).2
      · simp [upload_files, h0, hcr, hcr2, hatt, hp]
      · simp [upload_files, h0, hcr, hcr2, hatt, hp]

/-- Environment for the C1 witness: import creation succeeds with id `"77"`,
the first of two files attaches, the second hits a transport error, and the
processing trigger succeeds. -/
def sampleEnv : UploadEnv :=
  { createResp := ApiResult.ok (some "77")
    files := fun i => { dir := ["DATALOG", "20230101"], name := "f" ++ toString i }
    contents := fun _ => [1, 2, 3]
    fileExists := fun _ => true
    addResp := fun i => if i = 0 then ApiResult.ok () else ApiResult.transportError
    processResp := ApiResult.ok () }

/-- Witness for C1: the protocol theorem applied at a concrete run with two
files. -/
theorem c1_witness :
    (upload_files "/" 0 sampleState sampleEnv 2 none true).2.2.head?
      = some Call.createCall :=
  (c1_upload_files_protocol "/" 0 sampleState sampleEnv 2 none true (by decide)).1

/-- Folding a membership-preserving step preserves membership. -/
lemma foldl_mem_mono {α β : Type} (step : List α → β → List α)
    (hmono : ∀ acc b x, x ∈ acc → x ∈ step acc b) :
    ∀ (l : List β) (acc : List α) (x : α), x ∈ acc → x ∈ l.foldl step acc := by
  intro l
  induction l with
  | nil => intro acc x h; exact h
  | cons b t ih => intro acc x h; exact ih (step acc b) x (hmono acc b x h)

/-- Everything a fold adds comes from one of the folded elements. -/
lemma foldl_mem_src {α β : Type} (step : List α → β → List α) (C : β → α → Prop)
    (hsrc : ∀ acc b x, x ∈ step acc b → x ∈ acc ∨ C b x) :
    ∀ (l : List β) (acc : List α) (x : α),
      x ∈ l.foldl step acc → x ∈ acc ∨ ∃ b ∈ l, C b x := by
  intro l
  induction l with
  | nil => intro acc x h; exact Or.inl h
  | cons b t ih =>
    intro acc x h
    rcases ih (step acc b) x h with h1 | ⟨b', hb', hc⟩
    · rcases hsrc acc b x h1 with h2 | h2
      · exact Or.inl h2
      · exact Or.inr ⟨b, List.mem_cons_self b t, h2⟩
    · exact Or.inr ⟨b', List.mem_cons_of_mem b hb', hc⟩

/-- Once an element whose step always produces it is reached, it is in the
fold's result. -/
lemma foldl_mem_of_hit {α β : Type} (step : List α → β → List α) (p : α) (b : β)
    (hmono : ∀ acc b' x, x ∈ acc → x ∈ step acc b')
    (hhit : ∀ acc, p ∈ step acc b) :
    ∀ (l : List β) (acc : List α), b ∈ l → p ∈ l.foldl step acc := by
  intro l
  induction l with
  | nil => intro acc h; exact absurd h (List.not_mem_nil b)
  | cons q t ih =>
    intro acc hb
    rcases List.mem_cons.mp hb with rfl | hb'
    · exact foldl_mem_mono step hmono t (step acc b) p (hhit acc)
    · exact ih (step acc q) hb'

/-- `add_file` preserves membership. -/
lemma add_file_mono (tree : List (List String)) (acc : List (List String))
    (b x : List String) (h : x ∈ acc) : x ∈ add_file tree acc b := by
  unfold add_file
  split
  · exact List.mem_append_left _ h
  · exact h

/-- `add_file` adds its argument when it is an eligible regular file. -/
lemma add_file_self (tree : List (List String)) (acc : List (List String))
    (p : List String) (h1 : isFile tree p) (h2 : startsWithDot (baseName p) = false) :
    p ∈ add_file tree acc p := by
  unfold add_file
  split
  · exact List.mem_append_right _ (List.mem_singleton_self p)
  · next hc =>
    by_cases hm : p ∈ acc
    · exact hm
    · exact absurd ⟨h1, h2, hm⟩ hc

/-- `add_file` only adds its argument, and only when it is an eligible file. -/
lemma add_file_src (tree : List (List String)) (acc : List (List String))
    (b x : List String) (h : x ∈ add_file tree acc b) :
    x ∈ acc ∨ (x = b ∧ isFile tree b ∧ startsWithDot (baseName b) = false) := by
  unfold add_file at h
  split at h
  · next hcond =>
    rcases List.mem_append.mp h with h1 | h1
    · exact Or.inl h1
    · exact Or.inr ⟨List.mem_singleton.mp h1, hcond.1, hcond.2.1⟩
  · exact Or.inl h

/-- An eligible file among the folded files ends up in the fold. -/
lemma foldl_add_file_mem (tree : List (List String)) :
    ∀ (l acc : List (List String)) (p : List String), p ∈ l → isFile tree p →
      startsWithDot (baseName p) = false → p ∈ l.foldl (add_file tree) acc := by
  intro l
  induction l with
  | nil => intro acc p h; exact absurd h (List.not_mem_nil p)
  | cons q t ih =>
    intro acc p hp h1 h2
    rcases List.mem_cons.mp hp with rfl | hp'
    · exact foldl_mem_mono (add_file tree) (add_file_mono tree) t _ p
        (add_file_self tree acc p h1 h2)
    · exact ih (add_file tree acc q) p hp' h1 h2

/-- Unfolding of `filesUnder` membership. -/
lemma filesUnder_mem (tree : List (List String)) (pre p : List String) :
    p ∈ filesUnder tree pre ↔
      p ∈ tree ∧ p.take pre.length = pre ∧ pre.length < p.length := by
  simp [filesUnder, List.mem_filter]

/-- A file under `SETTINGS/` has shape `SETTINGS :: x :: xs`. -/
lemma filesUnder_settings_shape (tree : List (List String)) (p : List String)
    (h : p ∈ filesUnder tree ["SETTINGS"]) : ∃ x xs, p = "SETTINGS" :: x :: xs := by
  rcases (filesUnder_mem tree ["SETTINGS"] p).mp h with ⟨-, htake, hlen⟩
  cases p with
  | nil => simp at hlen
  | cons a q =>
    simp at htake
    cases q with
    | nil => simp at hlen
    | cons x xs => exact ⟨x, xs, by rw [htake]⟩

/-- A file under `DATALOG/d/` has shape `DATALOG :: d :: x :: xs`. -/
lemma filesUnder_datalog_shape (tree : List (List String)) (d : String) (p : List String)
    (h : p ∈ filesUnder tree ["DATALOG", d]) : ∃ x xs, p = "DATALOG" :: d :: x :: xs := by
  rcases (filesUnder_mem tree ["DATALOG", d] p).mp h with ⟨-, htake, hlen⟩
  cases p with
  | nil => simp at hlen
  | cons a q =>
    cases q with
    | nil => simp at hlen
    | cons b r =>
      simp at htake hlen
      cases r with
      | nil => simp at hlen
      | cons x xs => exact ⟨x, xs, by rw [htake.1, htake.2]⟩

/-- The three categories a selected file can fall into: a mandatory root file,
a file strictly under `SETTINGS/`, or a file strictly under a `DATALOG`
date-folder. -/
def inCategories (p : List String) : Prop :=
  (p = ["STR.edf"] ∨ p = ["Identification.crc"] ∨ p = ["Identification.json"])
  ∨ (∃ x xs, p = "SETTINGS" :: x :: xs)
  ∨ (∃ d x xs, p = "DATALOG" :: d :: x :: xs)

/-- Everything in the step-1 accumulator is a mandatory root file. -/
lemma mandatoryAcc_src (tree : List (List String)) (p : List String)
    (h : p ∈ mandatoryAcc tree) :
    p = ["STR.edf"] ∨ p = ["Identification.crc"] ∨ p = ["Identification.json"] := by
  have := foldl_mem_src (mandatoryStep tree) (fun nm x => x = [nm])
    (fun acc nm x hx => by
      unfold mandatoryStep at hx
      split at hx
      · rcases add_file_src tree acc [nm] x hx with h1 | h1
        · exact Or.inl h1
        · exact Or.inr h1.1
      · exact Or.inl hx)
    mandatoryFiles [] p h
  rcases this with h1 | ⟨nm, hnm, rfl⟩
  · exact absurd h1 (List.not_mem_nil p)
  · simp [mandatoryFiles] at hnm
    rcases hnm with rfl | rfl | rfl
    · exact Or.inl rfl
    · exact Or.inr (Or.inl rfl)
    · exact Or.inr (Or.inr rfl)

/-- Everything in the step-2 accumulator is mandatory or under `SETTINGS/`. -/
lemma settingsAcc_src (tree : List (List String)) (p : List String)
    (h : p ∈ settingsAcc tree) :
    (p = ["STR.edf"] ∨ p = ["Identification.crc"] ∨ p = ["Identification.json"])
  ∨ (∃ x xs, p = "SETTINGS" :: x :: xs) := by
  unfold settingsAcc at h
  split at h
  · have := foldl_mem_src (add_file tree) (fun b x => x = b)
      (fun acc b x hx => by
        rcases add_file_src tree acc b x hx with h1 | h1
        · exact Or.inl h1
        · exact Or.inr h1.1)
      (filesUnder tree ["SETTINGS"]) (mandatoryAcc tree) p h
    rcases this with h1 | ⟨b, hb, rfl⟩
    · exact Or.inl (mandatoryAcc_src tree p h1)
    · exact Or.inr (filesUnder_settings_shape tree p hb)
  · exact Or.inl (mandatoryAcc_src tree p h)

/-- `pexists` holds for a regular file. -/
lemma pexists_of_isFile (tree : List (List String)) (p : List String)
    (h : isFile tree p) : pexists tree p := Or.inl h

/-- `pexists` holds for a directory above some regular file. -/
lemma pexists_of_under (tree : List (List String)) (pre p : List String)
    (hp : p ∈ tree) (ht : p.take pre.length = pre) (hl : pre.length < p.length) :
    pexists tree pre := Or.inr ⟨p, hp, ht, hl⟩

/-- C3: with `force = true` the selection contains every regular,
non-dot-prefixed file that is a present mandatory root file, lies under
`SETTINGS/`, or lies under a `DATALOG` date-folder — for every change set;
and for every change set and force value, nothing outside these three
categories is ever selected. -/
theorem c3_selection_sound_complete (tree downloaded : List (List String))
    (force : Bool) (p : List String) :
    (force = true → p ∈ tree → startsWithDot (baseName p) = false → inCategories p →
        p ∈ selectFiles tree downloaded force)
  ∧ (p ∈ selectFiles tree downloaded force → inCategories p) := by
  constructor
  · rintro rfl hp hdot hcat
    have hfile : isFile tree p := hp
    have hsel : selectFiles tree downloaded true
        = (if pexists tree ["DATALOG"] then
            (datalogChildren tree).foldl (datalogStep tree [] true) (settingsAcc tree)
          else settingsAcc tree) := by
      simp [selectFiles]
    have hdl_mono : ∀ (acc : List (List String)) (b : String) (x : List String),
        x ∈ acc → x ∈ datalogStep tree [] true acc b := by
      intro acc b x hx
      unfold datalogStep
      rw [if_pos (Or.inl rfl)]
      exact foldl_mem_mono (add_file tree) (add_file_mono tree) _ acc x hx
    have hsettings_mono : ∀ q, q ∈ settingsAcc tree →
        q ∈ selectFiles tree downloaded true := by
      intro q hq
      rw [hsel]
      split
      · exact foldl_mem_mono _ hdl_mono (datalogChildren tree) (settingsAcc tree) q hq
      · exact hq
    rcases hcat with hmand | ⟨x, xs, rfl⟩ | ⟨d, x, xs, rfl⟩
    · -- mandatory root file
      have hnm : ∃ nm, nm ∈ mandatoryFiles ∧ p = [nm] := by
        rcases hmand with rfl | rfl | rfl
        · exact ⟨"STR.edf", by simp [mandatoryFiles], rfl⟩
        · exact ⟨"Identification.crc", by simp [mandatoryFiles], rfl⟩
        · exact ⟨"Identification.json", by simp [mandatoryFiles], rfl⟩
      rcases hnm with ⟨nm, hnm, rfl⟩
      have hin : [nm] ∈ mandatoryAcc tree := by
        unfold mandatoryAcc
        refine foldl_mem_of_hit (mandatoryStep tree) [nm] nm ?_ ?_ mandatoryFiles [] hnm
        · intro acc b x hx
          unfold mandatoryStep
          split
          · exact add_file_mono tree acc [b] x hx
          · exact hx
        · intro acc
          unfold mandatoryStep
          rw [if_pos (pexists_of_isFile tree [nm] hfile)]
          exact add_file_self tree acc [nm] hfile hdot
      apply hsettings_mono
      unfold settingsAcc
      split
      · exact foldl_mem_mono (add_file tree) (add_file_mono tree) _ _ _ hin
      · exact hin
    · -- under SETTINGS/
      have hsub : "SETTINGS" :: x :: xs ∈ filesUnder tree ["SETTINGS"] := by
        rw [filesUnder_mem]
        exact ⟨hp, rfl, by simp⟩
      apply hsettings_mono
      unfold settingsAcc
      rw [if_pos (pexists_of_under tree ["SETTINGS"] _ hp rfl (by simp))]
      exact foldl_add_file_mem tree _ _ _ hsub hfile hdot
    · -- under DATALOG/d/
      have hsub : "DATALOG" :: d :: x :: xs ∈ filesUnder tree ["DATALOG", d] := by
        rw [filesUnder_mem]
        exact ⟨hp, rfl, by simp⟩
      have hchild : d ∈ datalogChildren tree := by
        unfold datalogChildren
        rw [List.mem_filter]
        constructor
        · rw [List.mem_dedup, List.mem_filterMap]
          exact ⟨_, hp, rfl⟩
        · simp only [decide_eq_true_eq]
          exact ⟨_, hp, rfl, by simp⟩
      rw [hsel, if_pos (pexists_of_under tree ["DATALOG"] _ hp rfl (by simp))]
      refine foldl_mem_of_hit _ _ d hdl_mono ?_ (datalogChildren tree) (settingsAcc tree)
        hchild
      intro acc
      unfold datalogStep
      rw [if_pos (Or.inl rfl)]
      exact foldl_add_file_mem tree _ _ _ hsub hfile hdot
  · intro h
    simp only [selectFiles] at h
    split at h
    · have := foldl_mem_src
        (datalogStep tree (if force = true then [] else activeFolders downloaded) force)
        (fun d x => ∃ y ys, x = "DATALOG" :: d :: y :: ys)
        (fun acc d x hx => by
          unfold datalogStep at hx
          by_cases hcond : force = true ∨ d ∈ (if force = true then [] else
              activeFolders downloaded)
          · rw [if_pos hcond] at hx
            have := foldl_mem_src (add_file tree) (fun b y => y = b)
              (fun acc2 b y hy => by
                rcases add_file_src tree acc2 b y hy with h1 | h1
                · exact Or.inl h1
                · exact Or.inr h1.1)
              (filesUnder tree ["DATALOG", d]) acc x hx
            rcases this with h1 | ⟨b, hb, rfl⟩
            · exact Or.inl h1
            · exact Or.inr (filesUnder_datalog_shape tree d x hb)
          · rw [if_neg hcond] at hx
            exact Or.inl hx)
        (datalogChildren tree) (settingsAcc tree) p h
      rcases this with h1 | ⟨d, -, hd⟩
      · rcases settingsAcc_src tree p h1 with h2 | h2
        · exact Or.inl h2
        · exact Or.inr (Or.inl h2)
      · rcases hd with ⟨y, ys, rfl⟩
        exact Or.inr (Or.inr ⟨d, y, ys, rfl⟩)
    · rcases settingsAcc_src tree p h with h2 | h2
      · exact Or.inl h2
      · exact Or.inr (Or.inl h2)

/-- Witness for C3: under `force = true` with an empty change set, the old
date-folder file `DATALOG/20230101/file1.edf` of the scenario tree is
selected. -/
theorem c3_witness :
    ["DATALOG", "20230101", "file1.edf"] ∈ selectFiles c2Tree [] true :=
  (c3_selection_sound_complete c2Tree [] true ["DATALOG", "20230101", "file1.edf"]).1
    rfl (by decide) (by decide)
    (Or.inr (Or.inr ⟨"20230101", "file1.edf", [], rfl⟩))

end EzShare
